import Mathlib

/-
Verification of the proof-of-existence pallet (pallets/poe/src/lib.rs).

The pallet stores a map from a proof (a byte sequence) to a pair of the
owning account and the block number at which the claim was registered.
Three dispatchables mutate it: create_claim, revoke_claim, transfer_claim.
We embed the storage map as an association list and each dispatchable as a
pure function from the pallet state to either an error or the new state
together with the deposited event, mirroring the control flow of the Rust
source line by line (each ensure! becomes an if; the storage read/write
primitives become assoc-list operations).
-/

namespace Poe

/-- Account identifiers (T::AccountId), opaque in the pallet. -/
abbrev AccountId := Nat

/-- Block numbers (T::BlockNumber), the logical timestamp source. -/
abbrev BlockNumber := Nat

/-- A proof / fingerprint: Vec<u8> in the source, modelled as a list of bytes. -/
abbrev ProofBytes := List Nat

/-- The error enum of the pallet (#[pallet::error]). -/
inductive PoeError where
  | ProofAlreadyExist
  | ProofIsTooLong
  | ClaimNotExist
  | NotProofOwner
deriving DecidableEq, Repr

/-- The event enum of the pallet (#[pallet::event]); the source spells the
transfer event ClaimTransfered. -/
inductive PoeEvent where
  | ClaimCreated (who : AccountId) (claim : ProofBytes)
  | ClaimRevoked (who : AccountId) (claim : ProofBytes)
  | ClaimTransfered (who : AccountId) (claim : ProofBytes) (dest : AccountId)
deriving DecidableEq, Repr

/-- The Proofs storage map: Vec<u8> -> (T::AccountId, T::BlockNumber),
embedded as an association list whose earliest binding for a key is the
current one. -/
abbrev ProofsMap := List (ProofBytes × (AccountId × BlockNumber))

/-- StorageMap::get. -/
def mapGet (m : ProofsMap) (k : ProofBytes) : Option (AccountId × BlockNumber) :=
  match m with
  | [] => none
  | (k0, v) :: rest => if k0 = k then some v else mapGet rest k

/-- StorageMap::contains_key. -/
def contains_key (m : ProofsMap) (k : ProofBytes) : Bool :=
  (mapGet m k).isSome

/-- StorageMap::remove. -/
def mapRemove (m : ProofsMap) (k : ProofBytes) : ProofsMap :=
  m.filter (fun kv => decide (kv.1 ≠ k))

/-- StorageMap::insert: the new binding shadows and erases any older one. -/
def mapInsert (m : ProofsMap) (k : ProofBytes) (v : AccountId × BlockNumber) : ProofsMap :=
  (k, v) :: mapRemove m k

/-- The pallet state visible to the dispatchables: the Proofs storage map
and the frame_system block number read by create_claim / transfer_claim. -/
structure PoeState where
  proofs : ProofsMap
  blockNumber : BlockNumber
deriving DecidableEq, Repr

/-- create_claim(origin, proof): checks the length bound against the
ProofLimit constant, then absence from storage, then inserts
(sender, current_block) and deposits ClaimCreated. -/
def create_claim (proofLimit : Nat) (st : PoeState) (sender : AccountId)
    (proof : ProofBytes) : Except PoeError (PoeState × PoeEvent) :=
  if proof.length ≤ proofLimit then
    if contains_key st.proofs proof then
      Except.error PoeError.ProofAlreadyExist
    else
      let current_block := st.blockNumber
      Except.ok ({ st with proofs := mapInsert st.proofs proof (sender, current_block) },
        PoeEvent.ClaimCreated sender proof)
  else
    Except.error PoeError.ProofIsTooLong

/-- revoke_claim(origin, proof): reads the stored owner (ClaimNotExist when
absent), checks it equals the sender, then removes the entry and deposits
ClaimRevoked. -/
def revoke_claim (st : PoeState) (sender : AccountId) (proof : ProofBytes) :
    Except PoeError (PoeState × PoeEvent) :=
  match mapGet st.proofs proof with
  | none => Except.error PoeError.ClaimNotExist
  | some (owner, _) =>
    if sender = owner then
      Except.ok ({ st with proofs := mapRemove st.proofs proof },
        PoeEvent.ClaimRevoked sender proof)
    else
      Except.error PoeError.NotProofOwner

/-- transfer_claim(origin, proof, dest): checks presence via contains_key,
reads the owner (a second ClaimNotExist guard, as in the source), checks
ownership, then overwrites the entry with (dest, current_block) and
deposits ClaimTransfered. -/
def transfer_claim (st : PoeState) (sender : AccountId) (proof : ProofBytes)
    (dest : AccountId) : Except PoeError (PoeState × PoeEvent) :=
  if contains_key st.proofs proof then
    match mapGet st.proofs proof with
    | none => Except.error PoeError.ClaimNotExist
    | some (owner, _) =>
      if sender = owner then
        let current_block := st.blockNumber
        Except.ok ({ st with proofs := mapInsert st.proofs proof (dest, current_block) },
          PoeEvent.ClaimTransfered sender proof dest)
      else
        Except.error PoeError.NotProofOwner
  else
    Except.error PoeError.ClaimNotExist

/-- A dispatch call into the pallet. -/
inductive Call where
  | create (sender : AccountId) (proof : ProofBytes)
  | revoke (sender : AccountId) (proof : ProofBytes)
  | transfer (sender : AccountId) (proof : ProofBytes) (dest : AccountId)
deriving DecidableEq, Repr

/-- Transactional dispatch: on success the new state and the deposited
event, on error the untouched pre-state together with the error. -/
def step (proofLimit : Nat) (st : PoeState) (c : Call) :
    PoeState × Except PoeError PoeEvent :=
  match c with
  | Call.create sender proof =>
    match create_claim proofLimit st sender proof with
    | Except.ok (st1, ev) => (st1, Except.ok ev)
    | Except.error e => (st, Except.error e)
  | Call.revoke sender proof =>
    match revoke_claim st sender proof with
    | Except.ok (st1, ev) => (st1, Except.ok ev)
    | Except.error e => (st, Except.error e)
  | Call.transfer sender proof dest =>
    match transfer_claim st sender proof dest with
    | Except.ok (st1, ev) => (st1, Except.ok ev)
    | Except.error e => (st, Except.error e)

/-- Storage invariant: every proof held in the map respects the length
bound ProofLimit. -/
def LengthInv (proofLimit : Nat) (st : PoeState) : Prop :=
  ∀ p v, mapGet st.proofs p = some v → p.length ≤ proofLimit

/-- Removing a key from a cons: unfolding of filter. -/
theorem mapRemove_cons (kv : ProofBytes × (AccountId × BlockNumber)) (rest : ProofsMap)
    (k : ProofBytes) :
    mapRemove (kv :: rest) k =
      if kv.1 = k then mapRemove rest k else kv :: mapRemove rest k := by
  by_cases h : kv.1 = k <;> simp [mapRemove, List.filter_cons, h]

/-- After removing a key it is no longer found. -/
theorem mapGet_mapRemove_self (m : ProofsMap) (k : ProofBytes) :
    mapGet (mapRemove m k) k = none := by
  induction m with
  | nil => rfl
  | cons kv rest ih =>
    rw [mapRemove_cons]
    by_cases h : kv.1 = k
    · simpa [h] using ih
    · simpa [mapGet, h] using ih

/-- Removing one key leaves every other key unchanged. -/
theorem mapGet_mapRemove_other (m : ProofsMap) (k q : ProofBytes) (h : q ≠ k) :
    mapGet (mapRemove m k) q = mapGet m q := by
  induction m with
  | nil => rfl
  | cons kv rest ih =>
    rw [mapRemove_cons]
    by_cases hk : kv.1 = k
    · rw [if_pos hk, ih]
      have hq : kv.1 ≠ q := by rw [hk]; exact Ne.symm h
      simp [mapGet, hq]
    · rw [if_neg hk]
      by_cases hq : kv.1 = q <;> simp [mapGet, hq, ih]

/-- An inserted key is found with the inserted value. -/
theorem mapGet_mapInsert_self (m : ProofsMap) (k : ProofBytes) (v : AccountId × BlockNumber) :
    mapGet (mapInsert m k v) k = some v := by
  simp [mapInsert, mapGet]

/-- Inserting one key leaves every other key unchanged. -/
theorem mapGet_mapInsert_other (m : ProofsMap) (k q : ProofBytes) (v : AccountId × BlockNumber)
    (h : q ≠ k) :
    mapGet (mapInsert m k v) q = mapGet m q := by
  have : k ≠ q := fun hk => h hk.symm
  simp [mapInsert, mapGet, this, mapGet_mapRemove_other m k q h]

/-- contains_key is false exactly when get finds nothing. -/
theorem contains_key_eq_false_iff (m : ProofsMap) (k : ProofBytes) :
    contains_key m k = false ↔ mapGet m k = none := by
  unfold contains_key
  cases mapGet m k <;> simp

/-- contains_key is true exactly when get finds a value. -/
theorem contains_key_eq_true_iff (m : ProofsMap) (k : ProofBytes) :
    contains_key m k = true ↔ ∃ v, mapGet m k = some v := by
  unfold contains_key
  cases mapGet m k <;> simp

/-- Unfolding of step on a create call. -/
theorem step_create (proofLimit : Nat) (st : PoeState) (s : AccountId) (p : ProofBytes) :
    step proofLimit st (Call.create s p) =
      match create_claim proofLimit st s p with
      | Except.ok (st1, ev) => (st1, Except.ok ev)
      | Except.error e => (st, Except.error e) := rfl

/-- Unfolding of step on a revoke call. -/
theorem step_revoke (proofLimit : Nat) (st : PoeState) (s : AccountId) (p : ProofBytes) :
    step proofLimit st (Call.revoke s p) =
      match revoke_claim st s p with
      | Except.ok (st1, ev) => (st1, Except.ok ev)
      | Except.error e => (st, Except.error e) := rfl

/-- Unfolding of step on a transfer call. -/
theorem step_transfer (proofLimit : Nat) (st : PoeState) (s : AccountId) (p : ProofBytes)
    (d : AccountId) :
    step proofLimit st (Call.transfer s p d) =
      match transfer_claim st s p d with
      | Except.ok (st1, ev) => (st1, Except.ok ev)
      | Except.error e => (st, Except.error e) := rfl

/-- Inversion for a successful create_claim: the guards held and the new
state inserts (sender, current block) under the proof. -/
theorem create_claim_ok_elim (proofLimit : Nat) (st : PoeState) (sender : AccountId)
    (proof : ProofBytes) (st1 : PoeState) (ev : PoeEvent)
    (h : create_claim proofLimit st sender proof = Except.ok (st1, ev)) :
    proof.length ≤ proofLimit ∧ contains_key st.proofs proof = false ∧
      st1 = { st with proofs := mapInsert st.proofs proof (sender, st.blockNumber) } ∧
      ev = PoeEvent.ClaimCreated sender proof := by
  unfold create_claim at h
  split_ifs at h with h1 h2
  simp only [Except.ok.injEq, Prod.mk.injEq] at h
  exact ⟨h1, by simpa using h2, h.1.symm, h.2.symm⟩

/-- Inversion for a successful revoke_claim: the sender owned the proof and
the new state removes it. -/
theorem revoke_claim_ok_elim (st : PoeState) (sender : AccountId) (proof : ProofBytes)
    (st1 : PoeState) (ev : PoeEvent)
    (h : revoke_claim st sender proof = Except.ok (st1, ev)) :
    ∃ t, mapGet st.proofs proof = some (sender, t) ∧
      st1 = { st with proofs := mapRemove st.proofs proof } ∧
      ev = PoeEvent.ClaimRevoked sender proof := by
  unfold revoke_claim at h
  cases hg : mapGet st.proofs proof with
  | none => rw [hg] at h; simp at h
  | some w =>
    obtain ⟨ow, t⟩ := w
    rw [hg] at h
    simp only at h
    split_ifs at h with h2
    simp only [Except.ok.injEq, Prod.mk.injEq] at h
    subst h2
    exact ⟨t, rfl, h.1.symm, h.2.symm⟩

/-- Inversion for a successful transfer_claim: the sender owned the proof
and the new state stores (dest, current block) under it. -/
theorem transfer_claim_ok_elim (st : PoeState) (sender : AccountId) (proof : ProofBytes)
    (dest : AccountId) (st1 : PoeState) (ev : PoeEvent)
    (h : transfer_claim st sender proof dest = Except.ok (st1, ev)) :
    ∃ t, mapGet st.proofs proof = some (sender, t) ∧
      st1 = { st with proofs := mapInsert st.proofs proof (dest, st.blockNumber) } ∧
      ev = PoeEvent.ClaimTransfered sender proof dest := by
  unfold transfer_claim at h
  split_ifs at h with h1
  cases hg : mapGet st.proofs proof with
  | none => rw [hg] at h; simp at h
  | some w =>
    obtain ⟨ow, t⟩ := w
    rw [hg] at h
    simp only at h
    split_ifs at h with h2
    simp only [Except.ok.injEq, Prod.mk.injEq] at h
    subst h2
    exact ⟨t, rfl, h.1.symm, h.2.symm⟩

/-- C1: for every caller and fingerprint longer than ProofLimit, create_claim
fails with ProofIsTooLong and the store is unchanged; the length check comes
first, so this holds whether or not the fingerprint is already present. -/
theorem create_claim_too_long (proofLimit : Nat) (st : PoeState) (sender : AccountId)
    (proof : ProofBytes) (h : proofLimit < proof.length) :
    step proofLimit st (Call.create sender proof) =
      (st, Except.error PoeError.ProofIsTooLong) := by
  have hlen : ¬ proof.length ≤ proofLimit := by omega
  simp [step, create_claim, hlen]

/-- Witness for C1, at a state where the too-long fingerprint is already
present in the store, so the error is ProofIsTooLong and not
ProofAlreadyExist. -/
theorem create_claim_too_long_witness :
    1 < ([1, 2] : ProofBytes).length ∧
      contains_key (⟨[([1, 2], (5, 0))], 3⟩ : PoeState).proofs [1, 2] = true ∧
      step 1 ⟨[([1, 2], (5, 0))], 3⟩ (Call.create 7 [1, 2]) =
        (⟨[([1, 2], (5, 0))], 3⟩, Except.error PoeError.ProofIsTooLong) :=
  ⟨by decide, by decide,
    create_claim_too_long 1 ⟨[([1, 2], (5, 0))], 3⟩ 7 [1, 2] (by decide)⟩

/-- C2: for every caller and fingerprint within the length bound that is
already present in the store, create_claim fails with ProofAlreadyExist and
the store is unchanged. -/
theorem create_claim_already_exist (proofLimit : Nat) (st : PoeState) (sender : AccountId)
    (proof : ProofBytes) (hlen : proof.length ≤ proofLimit)
    (hpres : contains_key st.proofs proof = true) :
    step proofLimit st (Call.create sender proof) =
      (st, Except.error PoeError.ProofAlreadyExist) := by
  simp [step, create_claim, hlen, hpres]

/-- Witness for C2 at a concrete state holding the fingerprint. -/
theorem create_claim_already_exist_witness :
    ([1] : ProofBytes).length ≤ 4 ∧
      contains_key (⟨[([1], (5, 0))], 3⟩ : PoeState).proofs [1] = true ∧
      step 4 ⟨[([1], (5, 0))], 3⟩ (Call.create 7 [1]) =
        (⟨[([1], (5, 0))], 3⟩, Except.error PoeError.ProofAlreadyExist) :=
  ⟨by decide, by decide,
    create_claim_already_exist 4 ⟨[([1], (5, 0))], 3⟩ 7 [1] (by decide) (by decide)⟩

/-- C3: for every caller and absent fingerprint within the length bound,
create_claim succeeds, stores (caller, current block number) under the
fingerprint, leaves every other key unchanged, and deposits
ClaimCreated(caller, fingerprint). -/
theorem create_claim_success (proofLimit : Nat) (st : PoeState) (sender : AccountId)
    (proof : ProofBytes) (hlen : proof.length ≤ proofLimit)
    (habs : contains_key st.proofs proof = false) :
    ∃ st1,
      step proofLimit st (Call.create sender proof) =
        (st1, Except.ok (PoeEvent.ClaimCreated sender proof)) ∧
      mapGet st1.proofs proof = some (sender, st.blockNumber) ∧
      (∀ q, q ≠ proof → mapGet st1.proofs q = mapGet st.proofs q) ∧
      st1.blockNumber = st.blockNumber := by
  refine ⟨{ st with proofs := mapInsert st.proofs proof (sender, st.blockNumber) },
    ?_, ?_, ?_, rfl⟩
  · simp [step, create_claim, hlen, habs]
  · exact mapGet_mapInsert_self st.proofs proof (sender, st.blockNumber)
  · intro q hq
    exact mapGet_mapInsert_other st.proofs proof q (sender, st.blockNumber) hq

/-- Witness for C3 at an empty store. -/
theorem create_claim_success_witness :
    ([1] : ProofBytes).length ≤ 5 ∧
      contains_key (⟨[], 4⟩ : PoeState).proofs [1] = false ∧
      (∃ st1,
        step 5 ⟨[], 4⟩ (Call.create 2 [1]) =
          (st1, Except.ok (PoeEvent.ClaimCreated 2 [1])) ∧
        mapGet st1.proofs [1] = some (2, (⟨[], 4⟩ : PoeState).blockNumber) ∧
        (∀ q, q ≠ [1] → mapGet st1.proofs q = mapGet (⟨[], 4⟩ : PoeState).proofs q) ∧
        st1.blockNumber = (⟨[], 4⟩ : PoeState).blockNumber) :=
  ⟨by decide, by decide, create_claim_success 5 ⟨[], 4⟩ 2 [1] (by decide) (by decide)⟩

/-- C4: for every caller and absent fingerprint, revoke_claim and
transfer_claim (for any dest) fail with ClaimNotExist and the store is
unchanged. -/
theorem absent_revoke_transfer_claim_not_exist (proofLimit : Nat) (st : PoeState)
    (sender : AccountId) (proof : ProofBytes)
    (habs : contains_key st.proofs proof = false) :
    step proofLimit st (Call.revoke sender proof) =
      (st, Except.error PoeError.ClaimNotExist) ∧
    ∀ dest, step proofLimit st (Call.transfer sender proof dest) =
      (st, Except.error PoeError.ClaimNotExist) := by
  have hget : mapGet st.proofs proof = none := (contains_key_eq_false_iff _ _).mp habs
  constructor
  · simp [step, revoke_claim, hget]
  · intro dest
    simp [step, transfer_claim, habs]

/-- Witness for C4 at a store that holds a different fingerprint. -/
theorem absent_revoke_transfer_claim_not_exist_witness :
    contains_key (⟨[([2], (9, 1))], 6⟩ : PoeState).proofs [1] = false ∧
      step 5 ⟨[([2], (9, 1))], 6⟩ (Call.revoke 3 [1]) =
        (⟨[([2], (9, 1))], 6⟩, Except.error PoeError.ClaimNotExist) ∧
      step 5 ⟨[([2], (9, 1))], 6⟩ (Call.transfer 3 [1] 4) =
        (⟨[([2], (9, 1))], 6⟩, Except.error PoeError.ClaimNotExist) :=
  ⟨by decide,
    (absent_revoke_transfer_claim_not_exist 5 ⟨[([2], (9, 1))], 6⟩ 3 [1] (by decide)).1,
    (absent_revoke_transfer_claim_not_exist 5 ⟨[([2], (9, 1))], 6⟩ 3 [1] (by decide)).2 4⟩

/-- C5: for every stored fingerprint with owner o and every caller distinct
from o, revoke_claim and transfer_claim (for any dest) fail with
NotProofOwner and the store is unchanged. -/
theorem non_owner_revoke_transfer_fail (proofLimit : Nat) (st : PoeState)
    (sender owner : AccountId) (t : BlockNumber) (proof : ProofBytes)
    (hown : mapGet st.proofs proof = some (owner, t)) (hne : sender ≠ owner) :
    step proofLimit st (Call.revoke sender proof) =
      (st, Except.error PoeError.NotProofOwner) ∧
    ∀ dest, step proofLimit st (Call.transfer sender proof dest) =
      (st, Except.error PoeError.NotProofOwner) := by
  have hpres : contains_key st.proofs proof = true :=
    (contains_key_eq_true_iff _ _).mpr ⟨_, hown⟩
  constructor
  · simp [step, revoke_claim, hown, hne]
  · intro dest
    simp [step, transfer_claim, hpres, hown, hne]

/-- Witness for C5: account 3 is not the owner (account 9) of the stored
fingerprint. -/
theorem non_owner_revoke_transfer_fail_witness :
    mapGet (⟨[([2], (9, 1))], 6⟩ : PoeState).proofs [2] = some (9, 1) ∧ (3 : AccountId) ≠ 9 ∧
      step 5 ⟨[([2], (9, 1))], 6⟩ (Call.revoke 3 [2]) =
        (⟨[([2], (9, 1))], 6⟩, Except.error PoeError.NotProofOwner) ∧
      step 5 ⟨[([2], (9, 1))], 6⟩ (Call.transfer 3 [2] 4) =
        (⟨[([2], (9, 1))], 6⟩, Except.error PoeError.NotProofOwner) :=
  ⟨by decide, by decide,
    (non_owner_revoke_transfer_fail 5 ⟨[([2], (9, 1))], 6⟩ 3 9 1 [2] (by decide) (by decide)).1,
    (non_owner_revoke_transfer_fail 5 ⟨[([2], (9, 1))], 6⟩ 3 9 1 [2] (by decide) (by decide)).2 4⟩

/-- C6: for every stored fingerprint with owner o, transfer_claim by o to
dest succeeds, stores (dest, current block number), leaves every other key
unchanged, and deposits ClaimTransfered(o, fingerprint, dest); after a
transfer to dest distinct from o, a subsequent transfer_claim by o fails
with NotProofOwner at any later block and limit. -/
theorem transfer_claim_success (proofLimit : Nat) (st : PoeState)
    (owner dest : AccountId) (t : BlockNumber) (proof : ProofBytes)
    (hown : mapGet st.proofs proof = some (owner, t)) :
    ∃ st1,
      step proofLimit st (Call.transfer owner proof dest) =
        (st1, Except.ok (PoeEvent.ClaimTransfered owner proof dest)) ∧
      mapGet st1.proofs proof = some (dest, st.blockNumber) ∧
      (∀ q, q ≠ proof → mapGet st1.proofs q = mapGet st.proofs q) ∧
      (dest ≠ owner → ∀ b d2 limit2,
        step limit2 ⟨st1.proofs, b⟩ (Call.transfer owner proof d2) =
          (⟨st1.proofs, b⟩, Except.error PoeError.NotProofOwner)) := by
  have hpres : contains_key st.proofs proof = true :=
    (contains_key_eq_true_iff _ _).mpr ⟨_, hown⟩
  refine ⟨{ st with proofs := mapInsert st.proofs proof (dest, st.blockNumber) },
    ?_, ?_, ?_, ?_⟩
  · simp [step, transfer_claim, hpres, hown]
  · exact mapGet_mapInsert_self st.proofs proof (dest, st.blockNumber)
  · intro q hq
    exact mapGet_mapInsert_other st.proofs proof q (dest, st.blockNumber) hq
  · intro hneq b d2 limit2
    have hget1 : mapGet (mapInsert st.proofs proof (dest, st.blockNumber)) proof =
        some (dest, st.blockNumber) :=
      mapGet_mapInsert_self st.proofs proof (dest, st.blockNumber)
    have hpres1 : contains_key (mapInsert st.proofs proof (dest, st.blockNumber)) proof = true :=
      (contains_key_eq_true_iff _ _).mpr ⟨_, hget1⟩
    have howner_ne : owner ≠ dest := fun h => hneq h.symm
    simp [step, transfer_claim, hpres1, hget1, howner_ne]

/-- Witness for C6: owner 9 transfers to 4, then can no longer transfer. -/
theorem transfer_claim_success_witness :
    mapGet (⟨[([2], (9, 1))], 6⟩ : PoeState).proofs [2] = some (9, 1) ∧
      (∃ st1,
        step 5 ⟨[([2], (9, 1))], 6⟩ (Call.transfer 9 [2] 4) =
          (st1, Except.ok (PoeEvent.ClaimTransfered 9 [2] 4)) ∧
        mapGet st1.proofs [2] = some (4, (⟨[([2], (9, 1))], 6⟩ : PoeState).blockNumber) ∧
        (∀ q, q ≠ [2] →
          mapGet st1.proofs q = mapGet (⟨[([2], (9, 1))], 6⟩ : PoeState).proofs q) ∧
        ((4 : AccountId) ≠ 9 → ∀ b d2 limit2,
          step limit2 ⟨st1.proofs, b⟩ (Call.transfer 9 [2] d2) =
            (⟨st1.proofs, b⟩, Except.error PoeError.NotProofOwner))) :=
  ⟨by decide, transfer_claim_success 5 ⟨[([2], (9, 1))], 6⟩ 9 4 1 [2] (by decide)⟩

/-- C10: self-transfer is permitted: for every stored fingerprint with
owner o, transfer_claim(o, fingerprint, o) succeeds, keeps o as owner,
refreshes the registered block to the current one, leaves every other key
unchanged, and deposits ClaimTransfered(o, fingerprint, o). -/
theorem transfer_claim_self (proofLimit : Nat) (st : PoeState) (owner : AccountId)
    (t : BlockNumber) (proof : ProofBytes)
    (hown : mapGet st.proofs proof = some (owner, t)) :
    ∃ st1,
      step proofLimit st (Call.transfer owner proof owner) =
        (st1, Except.ok (PoeEvent.ClaimTransfered owner proof owner)) ∧
      mapGet st1.proofs proof = some (owner, st.blockNumber) ∧
      (∀ q, q ≠ proof → mapGet st1.proofs q = mapGet st.proofs q) := by
  have hpres : contains_key st.proofs proof = true :=
    (contains_key_eq_true_iff _ _).mpr ⟨_, hown⟩
  refine ⟨{ st with proofs := mapInsert st.proofs proof (owner, st.blockNumber) },
    ?_, ?_, ?_⟩
  · simp [step, transfer_claim, hpres, hown]
  · exact mapGet_mapInsert_self st.proofs proof (owner, st.blockNumber)
  · intro q hq
    exact mapGet_mapInsert_other st.proofs proof q (owner, st.blockNumber) hq

/-- Witness for C10: owner 9 transfers the claim to itself; the registered
block is refreshed from 1 to the current block 6. -/
theorem transfer_claim_self_witness :
    mapGet (⟨[([2], (9, 1))], 6⟩ : PoeState).proofs [2] = some (9, 1) ∧
      (∃ st1,
        step 5 ⟨[([2], (9, 1))], 6⟩ (Call.transfer 9 [2] 9) =
          (st1, Except.ok (PoeEvent.ClaimTransfered 9 [2] 9)) ∧
        mapGet st1.proofs [2] = some (9, (⟨[([2], (9, 1))], 6⟩ : PoeState).blockNumber) ∧
        (∀ q, q ≠ [2] →
          mapGet st1.proofs q = mapGet (⟨[([2], (9, 1))], 6⟩ : PoeState).proofs q)) :=
  ⟨by decide, transfer_claim_self 5 ⟨[([2], (9, 1))], 6⟩ 9 1 [2] (by decide)⟩

/-- C7: a successful create_claim followed by revoke_claim by the same
caller leaves the fingerprint absent, and a subsequent create_claim of it by
any caller at any block then succeeds. -/
theorem create_revoke_round_trip (proofLimit : Nat) (st : PoeState) (caller : AccountId)
    (proof : ProofBytes) (hlen : proof.length ≤ proofLimit)
    (habs : contains_key st.proofs proof = false) :
    ∃ st1 st2,
      create_claim proofLimit st caller proof =
        Except.ok (st1, PoeEvent.ClaimCreated caller proof) ∧
      revoke_claim st1 caller proof =
        Except.ok (st2, PoeEvent.ClaimRevoked caller proof) ∧
      mapGet st2.proofs proof = none ∧
      ∀ other b, ∃ st3,
        create_claim proofLimit ⟨st2.proofs, b⟩ other proof =
          Except.ok (st3, PoeEvent.ClaimCreated other proof) := by
  refine ⟨{ st with proofs := mapInsert st.proofs proof (caller, st.blockNumber) },
    { st with proofs :=
        mapRemove (mapInsert st.proofs proof (caller, st.blockNumber)) proof },
    ?_, ?_, ?_, ?_⟩
  · simp [create_claim, hlen, habs]
  · simp [revoke_claim, mapGet_mapInsert_self]
  · exact mapGet_mapRemove_self _ _
  · intro other b
    have habs2 : contains_key
        (mapRemove (mapInsert st.proofs proof (caller, st.blockNumber)) proof) proof =
        false :=
      (contains_key_eq_false_iff _ _).mpr (mapGet_mapRemove_self _ _)
    refine ⟨⟨mapInsert
      (mapRemove (mapInsert st.proofs proof (caller, st.blockNumber)) proof)
      proof (other, b), b⟩, ?_⟩
    simp [create_claim, hlen, habs2]

/-- Witness for C7 starting from the empty store. -/
theorem create_revoke_round_trip_witness :
    ([3] : ProofBytes).length ≤ 4 ∧
      contains_key (⟨[], 2⟩ : PoeState).proofs [3] = false ∧
      (∃ st1 st2,
        create_claim 4 ⟨[], 2⟩ 1 [3] =
          Except.ok (st1, PoeEvent.ClaimCreated 1 [3]) ∧
        revoke_claim st1 1 [3] =
          Except.ok (st2, PoeEvent.ClaimRevoked 1 [3]) ∧
        mapGet st2.proofs [3] = none ∧
        ∀ other b, ∃ st3,
          create_claim 4 ⟨st2.proofs, b⟩ other [3] =
            Except.ok (st3, PoeEvent.ClaimCreated other [3])) :=
  ⟨by decide, by decide, create_revoke_round_trip 4 ⟨[], 2⟩ 1 [3] (by decide) (by decide)⟩

/-- C8: atomicity: whenever a dispatch of any of the three operations
returns an error, the resulting store state equals the starting state. -/
theorem step_error_atomic (proofLimit : Nat) (st : PoeState) (c : Call) (e : PoeError)
    (herr : (step proofLimit st c).2 = Except.error e) :
    (step proofLimit st c).1 = st := by
  cases c with
  | create s p =>
    rw [step_create] at herr ⊢
    cases h : create_claim proofLimit st s p with
    | ok v =>
      obtain ⟨st1, ev⟩ := v
      rw [h] at herr
      simp at herr
    | error e2 => rfl
  | revoke s p =>
    rw [step_revoke] at herr ⊢
    cases h : revoke_claim st s p with
    | ok v =>
      obtain ⟨st1, ev⟩ := v
      rw [h] at herr
      simp at herr
    | error e2 => rfl
  | transfer s p d =>
    rw [step_transfer] at herr ⊢
    cases h : transfer_claim st s p d with
    | ok v =>
      obtain ⟨st1, ev⟩ := v
      rw [h] at herr
      simp at herr
    | error e2 => rfl

/-- Witness for C8: a revoke of an absent fingerprint errs and leaves the
store as it was. -/
theorem step_error_atomic_witness :
    (step 1 ⟨[([4], (2, 0))], 5⟩ (Call.revoke 1 [1])).2 =
        Except.error PoeError.ClaimNotExist ∧
      (step 1 ⟨[([4], (2, 0))], 5⟩ (Call.revoke 1 [1])).1 = ⟨[([4], (2, 0))], 5⟩ :=
  ⟨rfl,
    step_error_atomic 1 ⟨[([4], (2, 0))], 5⟩ (Call.revoke 1 [1])
      PoeError.ClaimNotExist rfl⟩

/-- C9: every fingerprint held in the store respects the length bound, the
bound is preserved by every dispatch, and consequently revoke_claim and
transfer_claim on any fingerprint longer than ProofLimit always fail with
ClaimNotExist. -/
theorem poe_length_invariant (proofLimit : Nat) (st : PoeState) (c : Call)
    (hinv : LengthInv proofLimit st) :
    LengthInv proofLimit (step proofLimit st c).1 ∧
    ∀ p : ProofBytes, proofLimit < p.length →
      (∀ sender, step proofLimit st (Call.revoke sender p) =
        (st, Except.error PoeError.ClaimNotExist)) ∧
      (∀ sender dest, step proofLimit st (Call.transfer sender p dest) =
        (st, Except.error PoeError.ClaimNotExist)) := by
  have habs : ∀ p : ProofBytes, proofLimit < p.length → mapGet st.proofs p = none := by
    intro p hp
    cases hg : mapGet st.proofs p with
    | none => rfl
    | some v => exact absurd (hinv p v hg) (by omega)
  refine ⟨?_, ?_⟩
  · cases c with
    | create s p =>
      rw [step_create]
      cases h : create_claim proofLimit st s p with
      | error e => exact hinv
      | ok v =>
        obtain ⟨st1, ev⟩ := v
        obtain ⟨hlen, -, hst1, -⟩ := create_claim_ok_elim proofLimit st s p st1 ev h
        subst hst1
        intro q v hq
        have hq2 : mapGet (mapInsert st.proofs p (s, st.blockNumber)) q = some v := hq
        by_cases hqp : q = p
        · subst hqp; exact hlen
        · rw [mapGet_mapInsert_other st.proofs p q _ hqp] at hq2
          exact hinv q v hq2
    | revoke s p =>
      rw [step_revoke]
      cases h : revoke_claim st s p with
      | error e => exact hinv
      | ok v =>
        obtain ⟨st1, ev⟩ := v
        obtain ⟨t, -, hst1, -⟩ := revoke_claim_ok_elim st s p st1 ev h
        subst hst1
        intro q v hq
        have hq2 : mapGet (mapRemove st.proofs p) q = some v := hq
        by_cases hqp : q = p
        · subst hqp; rw [mapGet_mapRemove_self] at hq2; exact absurd hq2 (by simp)
        · rw [mapGet_mapRemove_other st.proofs p q hqp] at hq2
          exact hinv q v hq2
    | transfer s p d =>
      rw [step_transfer]
      cases h : transfer_claim st s p d with
      | error e => exact hinv
      | ok v =>
        obtain ⟨st1, ev⟩ := v
        obtain ⟨t, hown, hst1, -⟩ := transfer_claim_ok_elim st s p d st1 ev h
        subst hst1
        intro q v hq
        have hq2 : mapGet (mapInsert st.proofs p (d, st.blockNumber)) q = some v := hq
        by_cases hqp : q = p
        · subst hqp; exact hinv q (s, t) hown
        · rw [mapGet_mapInsert_other st.proofs p q _ hqp] at hq2
          exact hinv q v hq2
  · intro p hp
    have hg := habs p hp
    have hc : contains_key st.proofs p = false := (contains_key_eq_false_iff _ _).mpr hg
    refine ⟨?_, ?_⟩
    · intro sender
      simp [step, revoke_claim, hg]
    · intro sender dest
      simp [step, transfer_claim, hc]

/-- Witness for C9 from the empty store, where the invariant holds
vacuously, dispatching a create_claim. -/
theorem poe_length_invariant_witness :
    LengthInv 2 ⟨[], 3⟩ ∧
      (LengthInv 2 (step 2 ⟨[], 3⟩ (Call.create 1 [7])).1 ∧
      ∀ p : ProofBytes, 2 < p.length →
        (∀ sender, step 2 ⟨[], 3⟩ (Call.revoke sender p) =
          (⟨[], 3⟩, Except.error PoeError.ClaimNotExist)) ∧
        (∀ sender dest, step 2 ⟨[], 3⟩ (Call.transfer sender p dest) =
          (⟨[], 3⟩, Except.error PoeError.ClaimNotExist))) :=
  have hinv : LengthInv 2 ⟨[], 3⟩ := fun _ _ h => Option.noConfusion h
  ⟨hinv, poe_length_invariant 2 ⟨[], 3⟩ (Call.create 1 [7]) hinv⟩

end Poe
